import Mathlib

/-!
Verification of the ReconPilot orchestration core against its specification.

The Python sources are shallowly embedded: dataclasses become structures,
`datetime` timestamps become abstract `Nat` instants (`datetime.now()` calls
are threaded in as explicit clock parameters), Python `float` scores become
`ℚ` (every default score modifier is a small integer, for which IEEE double
arithmetic is exact), and `dict[str, ...]` metadata becomes an association
list.  Fallible or effectful behaviour (subscriber callbacks, subprocess
reads) is made explicit in the function signatures.
-/

namespace ReconPilot

/-! ## Data model (reconpilot/core/models.py) -/

/-- Task execution status (`models.TaskStatus`). -/
inductive TaskStatus
  | pending
  | running
  | completed
  | failed
  | skipped
deriving DecidableEq

/-- Finding severity levels (`models.Severity`). -/
inductive Severity
  | critical
  | high
  | medium
  | low
  | info
deriving DecidableEq

/-- A reconnaissance task (`models.Task`).  `created_at`, `started_at` and
`completed_at` are abstract instants; `metadata` is an association list. -/
structure Task where
  name : String
  description : String
  status : TaskStatus := .pending
  progress : ℚ := 0
  id : String := ""
  created_at : Nat := 0
  started_at : Option Nat := none
  completed_at : Option Nat := none
  error : Option String := none
  metadata : List (String × String) := []
deriving DecidableEq

/-- A discovered asset (`models.Asset`). -/
structure Asset where
  type : String
  value : String
  discovered_by : String
  id : String := ""
  timestamp : Nat := 0
  metadata : List (String × String) := []
  score : ℚ := 0
deriving DecidableEq

/-- A security finding (`models.Finding`). -/
structure Finding where
  severity : Severity
  title : String
  host : String
  description : String
  discovered_by : String
  id : String := ""
  timestamp : Nat := 0
  evidence : Option String := none
  recommendations : List String := []
  metadata : List (String × String) := []
deriving DecidableEq

/-- A complete scan session (`models.ScanSession`). -/
structure ScanSession where
  target : String
  id : String := ""
  started_at : Nat := 0
  completed_at : Option Nat := none
  tasks : List Task := []
  findings : List Finding := []
  assets : List Asset := []
  metadata : List (String × String) := []
deriving DecidableEq

/-! ## Scoring engine (reconpilot/core/scoring.py) -/

/-- A scoring rule (`scoring.ScoringRule`); the predicate is embedded as a
boolean-valued function on assets. -/
structure ScoringRule where
  name : String
  condition : Asset → Bool
  score_modifier : ℚ
  reason : String

/-- Python `sub in s` substring test, on the underlying character lists. -/
def strContains (s sub : String) : Bool :=
  decide (sub.data <:+: s.data)

/-- Python `s.lower()`; ASCII case folding as in `String.toLower`. -/
def pyLower (s : String) : String :=
  s.toLower

/-- Python `any(x in v.lower() for x in pats)`. -/
def anyInLower (v : String) (pats : List String) : Bool :=
  pats.any fun p => strContains (pyLower v) p

/-- The default asset scoring rules (`ScoringEngine._init_default_rules`,
asset part).  Each condition reads only `value`, `type` and `metadata`. -/
def default_asset_rules : List ScoringRule :=
  [ { name := "admin_panel"
      condition := fun a => anyInLower a.value ["admin", "login", "portal", "dashboard"]
      score_modifier := 50
      reason := "Admin panel detected" },
    { name := "dev_environment"
      condition := fun a => anyInLower a.value ["dev", "staging", "test", "debug"]
      score_modifier := 30
      reason := "Development environment" },
    { name := "database_port"
      condition := fun a =>
        a.type == "port" &&
          (["3306", "5432", "27017", "6379", "1433"].any fun p =>
            strContains ((a.metadata.lookup "port").getD "") p)
      score_modifier := 40
      reason := "Database port exposed" },
    { name := "sensitive_file"
      condition := fun a => anyInLower a.value [".git", ".env", "config", "backup", ".sql", ".db"]
      score_modifier := 35
      reason := "Sensitive file detected" },
    { name := "api_endpoint"
      condition := fun a => anyInLower a.value ["/api/", "/v1/", "/v2/", "graphql"]
      score_modifier := 25
      reason := "API endpoint" } ]

/-- `ScoringEngine.score_asset`: start from the base score 10.0, add the
modifier of every matching rule in order, clamp with `min(total, 100.0)`. -/
def score_asset (rules : List ScoringRule) (a : Asset) : ℚ :=
  min (rules.foldl (fun total r => if r.condition a then total + r.score_modifier else total) 10) 100

/-- The running total of `score_asset` is the initial value plus the sum of
the modifiers of the matching rules. -/
theorem score_foldl_eq_add_sum (a : Asset) :
    ∀ (rules : List ScoringRule) (init : ℚ),
      rules.foldl (fun total r => if r.condition a then total + r.score_modifier else total) init
        = init + ((rules.filter fun r => r.condition a).map (fun r => r.score_modifier)).sum := by
  intro rules
  induction rules with
  | nil => intro init; simp
  | cons r rest ih =>
    intro init
    by_cases h : r.condition a
    · simp [List.foldl_cons, List.filter_cons, h, ih, add_assoc]
    · simp [List.foldl_cons, List.filter_cons, h, ih]

/-- C7: Asset scoring is a pure clamped sum — `score_asset` equals
`min (10 + Σ matching modifiers) 100` for every rule list and asset, and for
the default rules (whose predicates read only `type`, `value`, `metadata`)
the score assigned to an asset does not depend on the asset's current
`score` field, so rescoring a scored asset yields the same value
(deterministic and idempotent). -/
theorem score_asset_clamped_sum_and_idempotent :
    (∀ (rules : List ScoringRule) (a : Asset),
        score_asset rules a
          = min (10 + ((rules.filter fun r => r.condition a).map (fun r => r.score_modifier)).sum) 100)
    ∧ ∀ (a : Asset) (q : ℚ),
        score_asset default_asset_rules { a with score := q }
          = score_asset default_asset_rules a := by
  constructor
  · intro rules a
    unfold score_asset
    rw [score_foldl_eq_add_sum]
  · intro a q
    rfl

/-! ## Event system (reconpilot/core/events.py) -/

/-- Event types (`events.EventType`). -/
inductive EventType
  | scan_started
  | scan_completed
  | scan_paused
  | scan_resumed
  | task_started
  | task_completed
  | task_failed
  | task_progress
  | asset_discovered
  | finding_discovered
  | log_message
deriving DecidableEq

/-- An event (`events.Event`); `data` is modelled as an association list of
the string-rendered payload entries. The `id`/`timestamp`/`source` fields
play no role in any claim and are omitted. -/
structure Event where
  type : EventType
  data : List (String × String)
deriving DecidableEq

/-- A subscriber callback.  Its observable behaviour at one event is either
a normal return or a raised exception carrying a message (`Except.error`);
synchronous and asynchronous callbacks are indistinguishable at this level
since `publish` awaits asynchronous ones before continuing. -/
def Callback : Type := Event → Except String Unit

/-- The subscriber loop of `EventBus.publish` (events.py lines 60-65).  The
source iterates over the callbacks in registration order with no exception
handling, so the first raised exception aborts the loop and propagates.
Returns the number of callbacks invoked and the escaped exception, if any. -/
def run_subscribers : List Callback → Event → Nat × Option String
  | [], _ => (0, none)
  | cb :: rest, e =>
    match cb e with
    | .error msg => (1, some msg)
    | .ok _ =>
      let r := run_subscribers rest e
      (r.1 + 1, r.2)

/-- The event bus (`events.EventBus`): per-type subscriber lists, bounded
history. -/
structure EventBus where
  subscribers : List (EventType × List Callback)
  history : List Event
  max_history : Nat := 1000

/-- `EventBus.publish`: append the event to history, evict the oldest entry
when over capacity, then run the subscribers registered for the event's
type in order.  Returns the new bus state, the number of callbacks invoked
and the exception escaping from the subscriber loop, if any. -/
def publish (bus : EventBus) (e : Event) : EventBus × Nat × Option String :=
  let hist := bus.history ++ [e]
  let hist := if bus.max_history < hist.length then hist.drop 1 else hist
  let cbs := (bus.subscribers.lookup e.type).getD []
  let r := run_subscribers cbs e
  ({ bus with history := hist }, r.1, r.2)

/-- A callback that always raises. -/
def throwing_cb : Callback := fun _ => .error "boom"

/-- A callback that always returns normally. -/
def ok_cb : Callback := fun _ => .ok ()

/-- Running callbacks past a non-raising block skips over it, adding its
length to the invocation count. -/
theorem run_subscribers_skips_ok_block (e : Event) :
    ∀ (pre rest : List Callback), (∀ c ∈ pre, c e = .ok ()) →
      run_subscribers (pre ++ rest) e
        = ((run_subscribers rest e).1 + pre.length, (run_subscribers rest e).2) := by
  intro pre
  induction pre with
  | nil => intro rest _; simp
  | cons c cs ih =>
    intro rest hok
    have hc : c e = .ok () := hok c (by simp)
    have ih' := ih rest (fun x hx => hok x (List.mem_cons_of_mem _ hx))
    simp only [List.cons_append, run_subscribers, hc, List.append_eq]
    rw [ih']
    simp only [List.length_cons, Prod.mk.injEq]
    exact ⟨by omega, trivial⟩

/-- C3 counterexample: a bus with two subscribers registered for the event's
type, the first of which raises.  `publish` invokes only one of the two
callbacks and the exception escapes. -/
theorem publish_throwing_subscriber_aborts :
    (((EventBus.mk [(.log_message, [throwing_cb, ok_cb])] [] 1000).subscribers.lookup
        EventType.log_message).getD []).length = 2
      ∧ (publish (EventBus.mk [(.log_message, [throwing_cb, ok_cb])] [] 1000)
          (Event.mk .log_message [])).2.1 = 1
      ∧ (publish (EventBus.mk [(.log_message, [throwing_cb, ok_cb])] [] 1000)
          (Event.mk .log_message [])).2.2 = some "boom" :=
  ⟨rfl, rfl, rfl⟩

/-- C3 amended: `publish` invokes the subscribers registered for the event's
type in registration order only up to and including the first that raises;
that exception propagates out of `publish` and the remaining subscribers are
not invoked.  When no subscriber raises, all of them are invoked and no
exception escapes. -/
theorem publish_subscriber_exception_propagates :
    (∀ (bus : EventBus) (e : Event) (pre post : List Callback) (cb : Callback) (msg : String),
        (bus.subscribers.lookup e.type).getD [] = pre ++ cb :: post →
        (∀ c ∈ pre, c e = .ok ()) → cb e = .error msg →
          (publish bus e).2 = (pre.length + 1, some msg))
    ∧ (∀ (bus : EventBus) (e : Event),
        (∀ c ∈ (bus.subscribers.lookup e.type).getD [], c e = .ok ()) →
          (publish bus e).2 = (((bus.subscribers.lookup e.type).getD []).length, none)) := by
  constructor
  · intro bus e pre post cb msg hcbs hok hthrow
    unfold publish
    simp only [hcbs]
    rw [run_subscribers_skips_ok_block e pre (cb :: post) hok]
    simp [run_subscribers, hthrow, Nat.add_comm]
  · intro bus e hok
    unfold publish
    simp only []
    have h := run_subscribers_skips_ok_block e ((bus.subscribers.lookup e.type).getD []) [] hok
    simp only [List.append_nil] at h
    simp [h, run_subscribers]

/-- C3 witness: applying the amended theorem at a concrete bus whose second
subscriber raises. -/
theorem publish_subscriber_exception_propagates_witness :
    (publish { subscribers := [(.log_message, [ok_cb, throwing_cb])], history := [] }
        { type := .log_message, data := [] }).2 = (2, some "boom") :=
  publish_subscriber_exception_propagates.1
    { subscribers := [(.log_message, [ok_cb, throwing_cb])], history := [] }
    { type := .log_message, data := [] }
    [ok_cb] [] throwing_cb "boom" rfl
    (by intro c hc; simp at hc; subst hc; rfl) rfl

/-! ## Aliasing model for `EventBus.get_history` (C10)

Python lists are heap references: `history = self._history` copies the
reference, while a comprehension or a slice allocates a fresh list.  To make
the copy-vs-alias distinction observable we model a small heap of event
lists; the bus's internal `_history` lives at one address, and
`get_history` returns the address of the list it hands back. -/

/-- A heap of event lists; addresses are indices into `cells`. -/
structure ListHeap where
  cells : List (List Event)
deriving DecidableEq

/-- Dereference an address. -/
def ListHeap.read (h : ListHeap) (a : Nat) : List Event :=
  (h.cells[a]?).getD []

/-- Allocate a fresh list, returning its address. -/
def ListHeap.alloc (h : ListHeap) (l : List Event) : ListHeap × Nat :=
  (⟨h.cells ++ [l]⟩, h.cells.length)

/-- Mutate the list at an address (models in-place `append`/`clear` on a
Python list through whichever reference the caller holds). -/
def ListHeap.write (h : ListHeap) (a : Nat) (l : List Event) : ListHeap :=
  ⟨h.cells.set a l⟩

/-- `EventBus.get_history` (events.py lines 67-76) over the heap model.
`history = self._history` copies the reference; the `if event_type:`
comprehension and the `if limit:` slice each allocate a fresh list (and
Python's truthiness makes `limit=0` behave like an omitted limit).  Returns
the final heap and the address of the returned list. -/
def get_history (h : ListHeap) (hist_addr : Nat) (event_type : Option EventType)
    (limit : Option Nat) : ListHeap × Nat :=
  let s1 : ListHeap × Nat :=
    match event_type with
    | some t => h.alloc ((h.read hist_addr).filter fun e => e.type == t)
    | none => (h, hist_addr)
  match limit with
  | some n =>
    if n ≠ 0 then
      let cur := s1.1.read s1.2
      s1.1.alloc (cur.drop (cur.length - n))
    else s1
  | none => s1

/-- Writing at one address leaves a different address unchanged. -/
theorem ListHeap.read_write_ne (h : ListHeap) (i j : Nat) (l : List Event) (hij : i ≠ j) :
    (h.write i l).read j = h.read j := by
  unfold ListHeap.read ListHeap.write
  simp [List.getElem?_set_ne hij]

/-- Allocation leaves existing addresses unchanged. -/
theorem ListHeap.read_alloc_lt (h : ListHeap) (l : List Event) (j : Nat)
    (hj : j < h.cells.length) : (h.alloc l).1.read j = h.read j := by
  simp only [ListHeap.read, ListHeap.alloc]
  rw [List.getElem?_append]
  simp [hj]

/-- Writing through the address of a freshly allocated list leaves every
previously allocated address unchanged. -/
theorem ListHeap.alloc_write_read (h : ListHeap) (x l : List Event) (j : Nat)
    (hj : j < h.cells.length) :
    ((h.alloc x).1.write (h.alloc x).2 l).read j = h.read j := by
  simp only [ListHeap.read, ListHeap.alloc, ListHeap.write]
  rw [List.getElem?_set_ne (by omega : h.cells.length ≠ j)]
  rw [List.getElem?_append]
  simp [hj]

/-- C10 counterexample: with both optional arguments omitted, `get_history`
returns the bus's internal history list itself (the same address), so
clearing the returned list clears the internal history. -/
theorem get_history_no_args_aliases :
    (get_history (ListHeap.mk [[Event.mk .log_message []]]) 0 none none).2 = 0
      ∧ ((get_history (ListHeap.mk [[Event.mk .log_message []]]) 0 none none).1.write 0 []).read 0
          = []
      ∧ (ListHeap.mk [[Event.mk .log_message []]]).read 0 = [Event.mk .log_message []] :=
  ⟨rfl, rfl, rfl⟩

/-- C10 amended: `get_history` returns a copy — an address whose mutation
leaves the internal history untouched — exactly when `event_type` is
provided or `limit` is provided and nonzero; with both omitted (or a zero
`limit` and no `event_type`) it returns the internal list itself. -/
theorem get_history_copy_iff_filtered :
    (∀ (h : ListHeap) (hist_addr : Nat) (event_type : Option EventType) (limit : Option Nat),
        hist_addr < h.cells.length →
        (event_type ≠ none ∨ ∃ n, limit = some n ∧ n ≠ 0) →
        ∀ l : List Event,
          (((get_history h hist_addr event_type limit).1.write
              (get_history h hist_addr event_type limit).2 l)).read hist_addr
            = h.read hist_addr)
    ∧ ∀ (h : ListHeap) (hist_addr : Nat),
        get_history h hist_addr none none = (h, hist_addr)
        ∧ get_history h hist_addr none (some 0) = (h, hist_addr) := by
  constructor
  · intro h hist_addr event_type limit haddr hprov l
    match event_type, limit with
    | none, none =>
      rcases hprov with h1 | ⟨n, hn, _⟩
      · exact absurd rfl h1
      · exact absurd hn (by simp)
    | none, some n =>
      rcases hprov with h1 | ⟨m, hm, hm0⟩
      · exact absurd rfl h1
      · have hn0 : n ≠ 0 := by cases hm; exact hm0
        simp only [get_history]
        rw [if_pos hn0]
        exact ListHeap.alloc_write_read h _ _ _ haddr
    | some t, none =>
      simp only [get_history]
      exact ListHeap.alloc_write_read h _ _ _ haddr
    | some t, some n =>
      by_cases hn0 : n = 0
      · subst hn0
        simp only [get_history]
        rw [if_neg (by simp)]
        exact ListHeap.alloc_write_read h _ _ _ haddr
      · have hlt : hist_addr
            < ((h.alloc ((h.read hist_addr).filter fun e => e.type == t)).1).cells.length := by
          simp only [ListHeap.alloc, List.length_append, List.length_singleton]
          omega
        simp only [get_history]
        rw [if_pos hn0]
        rw [ListHeap.alloc_write_read _ _ _ _ hlt]
        exact ListHeap.read_alloc_lt h _ _ haddr
  · intro h hist_addr
    exact ⟨rfl, rfl⟩

/-- C10 witness: applying the amended theorem with a provided `event_type`
on a one-event history. -/
theorem get_history_copy_iff_filtered_witness :
    (0 : Nat) < (ListHeap.mk [[{ type := EventType.log_message, data := [] }]]).cells.length
      ∧ (((get_history ⟨[[{ type := EventType.log_message, data := [] }]]⟩ 0
            (some .log_message) none).1.write
            (get_history ⟨[[{ type := EventType.log_message, data := [] }]]⟩ 0
              (some .log_message) none).2 [])).read 0
          = (ListHeap.mk [[{ type := EventType.log_message, data := [] }]]).read 0 :=
  ⟨by decide,
    get_history_copy_iff_filtered.1 ⟨[[{ type := EventType.log_message, data := [] }]]⟩ 0
      (some .log_message) none (by decide) (Or.inl (by simp)) []⟩

/-! ## Orchestrator (reconpilot/core/orchestrator.py)

The orchestrator's `datetime.now()` calls are threaded in as explicit `Nat`
instants.  The events the orchestrator publishes on its bus are recorded in
order in an `events` list; the bus's own history/subscriber behaviour is
modelled separately above. -/

/-- String rendering of a severity (`Severity.value`). -/
def severity_value : Severity → String
  | .critical => "critical"
  | .high => "high"
  | .medium => "medium"
  | .low => "low"
  | .info => "info"

/-- String rendering of a task status (`TaskStatus.value`). -/
def status_value : TaskStatus → String
  | .pending => "pending"
  | .running => "running"
  | .completed => "completed"
  | .failed => "failed"
  | .skipped => "skipped"

/-- The ASSET_DISCOVERED event published by `Orchestrator._handle_asset`. -/
def asset_discovered_event (a : Asset) : Event :=
  { type := .asset_discovered, data := [("asset_id", a.id), ("type", a.type), ("value", a.value)] }

/-- The FINDING_DISCOVERED event published by `Orchestrator._handle_finding`. -/
def finding_discovered_event (f : Finding) : Event :=
  { type := .finding_discovered,
    data := [("finding_id", f.id), ("severity", severity_value f.severity), ("title", f.title)] }

/-- The TASK_STARTED event published by `Orchestrator._execute_task`. -/
def task_started_event (t : Task) : Event :=
  { type := .task_started, data := [("task_id", t.id), ("name", t.name)] }

/-- The TASK_PROGRESS event published by `Orchestrator._execute_task` (the
numeric progress payload is not rendered in this model). -/
def task_progress_event (t : Task) : Event :=
  { type := .task_progress, data := [("task_id", t.id)] }

/-- The TASK_COMPLETED event published by `Orchestrator._execute_task`. -/
def task_completed_event (t : Task) : Event :=
  { type := .task_completed, data := [("task_id", t.id), ("name", t.name)] }

/-- The TASK_FAILED event published by `Orchestrator._execute_task`. -/
def task_failed_event (t : Task) (err : String) : Event :=
  { type := .task_failed, data := [("task_id", t.id), ("error", err)] }

/-- The orchestrator state the ingestion code touches: the `_seen_assets`
set (as a list of dedup-key strings), the session's asset and finding
lists, and the published events in order. -/
structure Orch where
  seen_assets : List String := []
  session_assets : List Asset := []
  session_findings : List Finding := []
  events : List Event := []

/-- The dedup key computed by `_handle_asset`: the single string
`f"{asset.type}:{asset.value}"`. -/
def asset_key (a : Asset) : String :=
  a.type ++ ":" ++ a.value

/-- `Orchestrator._handle_asset` (orchestrator.py lines 277-298): a seen
dedup key drops the asset silently; an unseen key is recorded, the asset is
scored with the default rules, appended to `session.assets`, and
ASSET_DISCOVERED is published.  The AUTO-mode rule chaining that follows
(lines 300-316) only creates follow-up tasks and touches none of this
state, so it is not modelled. -/
def handle_asset (o : Orch) (a : Asset) : Orch :=
  if asset_key a ∈ o.seen_assets then o
  else
    { o with
      seen_assets := o.seen_assets ++ [asset_key a],
      session_assets := o.session_assets ++ [{ a with score := score_asset default_asset_rules a }],
      events := o.events ++ [asset_discovered_event a] }

/-- `Orchestrator._handle_finding`: unconditional append plus event. -/
def handle_finding (o : Orch) (f : Finding) : Orch :=
  { o with
    session_findings := o.session_findings ++ [f],
    events := o.events ++ [finding_discovered_event f] }

/-- Asset ingestion over a list of streamed assets, in order. -/
def ingest_assets (o : Orch) (as : List Asset) : Orch :=
  as.foldl handle_asset o

/-- Finding ingestion over a list of streamed findings, in order. -/
def ingest_findings (o : Orch) (fs : List Finding) : Orch :=
  fs.foldl handle_finding o

/-- A result streamed by a tool adapter (`tools.base.ToolResult`); the
`metadata` dict is modelled by its numeric entries, which is all the
orchestrator reads from it (`result.metadata.get("progress", 50.0)`). -/
structure ToolResult where
  tool_name : String
  success : Bool
  assets : List Asset := []
  findings : List Finding := []
  raw_output : String := ""
  error : Option String := none
  metadata : List (String × ℚ) := []
deriving DecidableEq

/-- `ReconPlan.mark_running`, task-field part: set status and `started_at`.
The source also moves the task into the plan's `running` bucket, which no
claim touches. -/
def mark_running (now : Nat) (t : Task) : Task :=
  { t with status := .running, started_at := some now }

/-- `ReconPlan.mark_completed`, task-field part: set status, `completed_at`
and force progress to 100. -/
def mark_completed (now : Nat) (t : Task) : Task :=
  { t with status := .completed, completed_at := some now, progress := 100 }

/-- `ReconPlan.mark_failed`, task-field part: set status, `completed_at`
and the error message. -/
def mark_failed (now : Nat) (err : String) (t : Task) : Task :=
  { t with status := .failed, completed_at := some now, error := some err }

/-- `ReconPlan.mark_skipped`, task-field part. -/
def mark_skipped (now : Nat) (t : Task) : Task :=
  { t with status := .skipped, completed_at := some now }

/-- What `Orchestrator._execute_task` observes of a registry entry: the
`is_available()` answer, the `ToolResult`s its `async for` receives from
`tool.execute(target)`, and — when the generator raises instead of
finishing — the exception message (`stream` then holds the results consumed
before the raise). -/
structure AdapterSpec where
  available : Bool
  stream : List ToolResult
  stream_exc : Option String := none

/-- The body of the orchestrator's `async for` loop (orchestrator.py lines
238-256): a successful result has its assets and findings ingested, the
task progress set from `result.metadata.get("progress", 50.0)` and a
TASK_PROGRESS event published; a result with `success=false` is ignored
entirely. -/
def process_result (st : Orch × Task) (r : ToolResult) : Orch × Task :=
  if r.success then
    let o := ingest_assets st.1 r.assets
    let o := ingest_findings o r.findings
    let t := { st.2 with progress := (r.metadata.lookup "progress").getD 50 }
    ({ o with events := o.events ++ [task_progress_event t] }, t)
  else st

/-- `Orchestrator._execute_task` (orchestrator.py lines 215-275).  `t1` and
`t2` are the instants of the first and second `datetime.now()` calls on the
taken path.  Returns the orchestrator state, the final task, and the
sequence of statuses the task held (its status trace).  Registry miss and
unavailable tool call `mark_failed` and return without publishing any
event; otherwise the task is marked running, the stream is consumed, and
the task is marked completed on normal stream end or failed when the
adapter raised. -/
def execute_task (o : Orch) (tool : Option AdapterSpec) (t1 t2 : Nat) (task : Task) :
    Orch × Task × List TaskStatus :=
  match tool with
  | none =>
    (o, mark_failed t1 ("Tool not found: " ++ task.name) task, [task.status, .failed])
  | some ad =>
    if ad.available then
      let task1 := mark_running t1 task
      let o1 := { o with events := o.events ++ [task_started_event task1] }
      let st2 := ad.stream.foldl process_result (o1, task1)
      match ad.stream_exc with
      | none =>
        let task3 := mark_completed t2 st2.2
        ({ st2.1 with events := st2.1.events ++ [task_completed_event task3] }, task3,
          [task.status, .running, .completed])
      | some msg =>
        let task3 := mark_failed t2 msg st2.2
        ({ st2.1 with events := st2.1.events ++ [task_failed_event task3 msg] }, task3,
          [task.status, .running, .failed])
    else
      (o, mark_failed t1 ("Tool not available: " ++ task.name) task, [task.status, .failed])

/-- An asset from the three mandatory constructor fields, the remaining
fields defaulted as in the Python dataclass. -/
def mkAsset (ty v d : String) : Asset :=
  { type := ty, value := v, discovered_by := d }

/-- The dedup key recorded in an ASSET_DISCOVERED event's payload, `none`
for every other event type. -/
def event_asset_key (e : Event) : Option String :=
  if e.type = .asset_discovered then
    some (((e.data.lookup "type").getD "") ++ ":" ++ ((e.data.lookup "value").getD ""))
  else none

/-- Ingestion invariant: session-asset keys are distinct and recorded in
`seen_assets`, and likewise for the keys of the ASSET_DISCOVERED events. -/
def OrchInv (o : Orch) : Prop :=
  (o.session_assets.map asset_key).Nodup
    ∧ (∀ a ∈ o.session_assets, asset_key a ∈ o.seen_assets)
    ∧ (o.events.filterMap event_asset_key).Nodup
    ∧ ∀ k ∈ o.events.filterMap event_asset_key, k ∈ o.seen_assets

/-- The key recorded in `asset_discovered_event a` is `asset_key a`. -/
theorem event_asset_key_of_event (a : Asset) :
    event_asset_key (asset_discovered_event a) = some (asset_key a) := by
  simp [event_asset_key, asset_discovered_event, asset_key, List.lookup]

/-- Appending a fresh element keeps a list duplicate-free. -/
theorem nodup_snoc {α : Type} {l : List α} {x : α} (hl : l.Nodup) (hx : x ∉ l) :
    (l ++ [x]).Nodup := by
  rw [List.nodup_append]
  refine ⟨hl, List.nodup_singleton x, ?_⟩
  intro b hb hb'
  simp only [List.mem_singleton] at hb'
  exact hx (hb' ▸ hb)

/-- `handle_asset` preserves the ingestion invariant. -/
theorem handle_asset_inv {o : Orch} (a : Asset) (h : OrchInv o) : OrchInv (handle_asset o a) := by
  obtain ⟨h1, h2, h3, h4⟩ := h
  unfold handle_asset
  by_cases hseen : asset_key a ∈ o.seen_assets
  · simp only [hseen, if_pos]
    exact ⟨h1, h2, h3, h4⟩
  · simp only [hseen, if_neg, not_false_eq_true]
    have hkey : asset_key { a with score := score_asset default_asset_rules a } = asset_key a := rfl
    refine ⟨?_, ?_, ?_, ?_⟩
    · rw [List.map_append]
      simp only [List.map_cons, List.map_nil, hkey]
      refine nodup_snoc h1 ?_
      intro hk
      obtain ⟨b, hb, hbk⟩ := List.mem_map.mp hk
      exact hseen (hbk ▸ h2 b hb)
    · intro b hb
      rcases List.mem_append.mp hb with hb' | hb'
      · exact List.mem_append_left _ (h2 b hb')
      · simp only [List.mem_singleton] at hb'
        subst hb'
        rw [hkey]
        exact List.mem_append_right _ (by simp)
    · rw [List.filterMap_append]
      simp only [List.filterMap, event_asset_key_of_event]
      refine nodup_snoc h3 ?_
      intro hk
      exact hseen (h4 _ hk)
    · intro k hk
      rw [List.filterMap_append] at hk
      rcases List.mem_append.mp hk with hk' | hk'
      · exact List.mem_append_left _ (h4 k hk')
      · simp only [List.filterMap, event_asset_key_of_event, List.mem_singleton] at hk'
        subst hk'
        exact List.mem_append_right _ (by simp)

/-- `ingest_assets` preserves the ingestion invariant. -/
theorem ingest_assets_inv (as : List Asset) :
    ∀ {o : Orch}, OrchInv o → OrchInv (ingest_assets o as) := by
  induction as with
  | nil => intro o h; exact h
  | cons a rest ih =>
    intro o h
    have : ingest_assets o (a :: rest) = ingest_assets (handle_asset o a) rest := rfl
    rw [this]
    exact ih (handle_asset_inv a h)

/-- C1 counterexample: two assets with distinct `(type, value)` pairs but
colliding concatenated keys.  `("a", "b:c")` and `("a:b", "c")` both yield
the key `"a:b:c"`, so the second asset — whose pair was never seen — is
silently dropped: it is not appended to `session.assets` and no second
ASSET_DISCOVERED event is emitted, refuting the claimed if-and-only-if. -/
theorem asset_dedup_pair_counterexample :
    ((mkAsset "a" "b:c" "t").type, (mkAsset "a" "b:c" "t").value)
        ≠ ((mkAsset "a:b" "c" "t").type, (mkAsset "a:b" "c" "t").value)
      ∧ (ingest_assets {} [mkAsset "a" "b:c" "t", mkAsset "a:b" "c" "t"]).session_assets.map
          (fun x => (x.type, x.value)) = [("a", "b:c")]
      ∧ (ingest_assets {} [mkAsset "a" "b:c" "t", mkAsset "a:b" "c" "t"]).events.length = 1 := by
  refine ⟨by decide, by decide, by decide⟩

/-- C1 amended: ingestion deduplicates on the concatenated string
`type ++ ":" ++ value`, not on the pair — an asset is appended, scored and
announced if and only if that string is unseen, so distinct pairs with
colliding concatenations are conflated (only the first is ingested).  The
claimed consequences survive: session assets have pairwise-distinct keys,
hence equal `(type, value)` pairs imply identical assets, and the
ASSET_DISCOVERED events carry pairwise-distinct keys, hence at most one
event per `(type, value)` pair. -/
theorem asset_dedup_by_key :
    (∀ (o : Orch) (a : Asset),
        (asset_key a ∈ o.seen_assets → handle_asset o a = o)
        ∧ (asset_key a ∉ o.seen_assets →
            handle_asset o a =
              { o with
                seen_assets := o.seen_assets ++ [asset_key a],
                session_assets :=
                  o.session_assets ++ [{ a with score := score_asset default_asset_rules a }],
                events := o.events ++ [asset_discovered_event a] }))
    ∧ ∀ as : List Asset,
        ((ingest_assets {} as).session_assets.map asset_key).Nodup
        ∧ (∀ a1 ∈ (ingest_assets {} as).session_assets,
            ∀ a2 ∈ (ingest_assets {} as).session_assets,
              a1.type = a2.type → a1.value = a2.value → a1 = a2)
        ∧ ((ingest_assets {} as).events.filterMap event_asset_key).Nodup := by
  constructor
  · intro o a
    constructor
    · intro hseen
      simp [handle_asset, hseen]
    · intro hseen
      simp [handle_asset, hseen]
  · intro as
    have hinv : OrchInv (ingest_assets {} as) := by
      refine ingest_assets_inv as ?_
      exact ⟨List.nodup_nil, by simp, by simp, by simp⟩
    obtain ⟨h1, _, h3, _⟩ := hinv
    refine ⟨h1, ?_, h3⟩
    intro a1 ha1 a2 ha2 hty hval
    refine List.inj_on_of_nodup_map h1 ha1 ha2 ?_
    unfold asset_key
    rw [hty, hval]

/-- C1 witness: applying the amended theorem's unseen-key case at a
concrete empty orchestrator state and asset. -/
theorem asset_dedup_by_key_witness :
    handle_asset {} (mkAsset "subdomain" "x.example.com" "subfinder")
      = { seen_assets := ["subdomain:x.example.com"],
          session_assets :=
            [{ mkAsset "subdomain" "x.example.com" "subfinder" with
                score := score_asset default_asset_rules
                  (mkAsset "subdomain" "x.example.com" "subfinder") }],
          session_findings := [],
          events := [asset_discovered_event (mkAsset "subdomain" "x.example.com" "subfinder")] } :=
  (asset_dedup_by_key.1 {} (mkAsset "subdomain" "x.example.com" "subfinder")).2 (by decide)

/-- A streamed result leaves the task's status, timestamps and error
unchanged (it may only update `progress`). -/
theorem process_result_task_fields (st : Orch × Task) (r : ToolResult) :
    ((process_result st r).2.status = st.2.status)
    ∧ ((process_result st r).2.started_at = st.2.started_at)
    ∧ ((process_result st r).2.completed_at = st.2.completed_at)
    ∧ ((process_result st r).2.error = st.2.error) := by
  unfold process_result
  by_cases h : r.success = true
  · simp [h]
  · simp [h]

/-- Consuming the whole stream leaves the task's status, timestamps and
error unchanged. -/
theorem foldl_process_result_task_fields (rs : List ToolResult) :
    ∀ st : Orch × Task,
      ((rs.foldl process_result st).2.status = st.2.status)
      ∧ ((rs.foldl process_result st).2.started_at = st.2.started_at)
      ∧ ((rs.foldl process_result st).2.completed_at = st.2.completed_at)
      ∧ ((rs.foldl process_result st).2.error = st.2.error) := by
  induction rs with
  | nil => intro st; exact ⟨rfl, rfl, rfl, rfl⟩
  | cons r rest ih =>
    intro st
    have h1 := process_result_task_fields st r
    have h2 := ih (process_result st r)
    simp only [List.foldl_cons]
    exact ⟨h2.1.trans h1.1, h2.2.1.trans h1.2.1, h2.2.2.1.trans h1.2.2.1,
      h2.2.2.2.trans h1.2.2.2⟩

/-- C2 counterexample: an adapter stream consisting of a single final
`ToolResult` with `success=false` (so no successful partial results were
yielded earlier).  The orchestrator never inspects `result.success` when
the stream ends, so the task is marked COMPLETED, not FAILED as claimed. -/
theorem parse_failure_completed_counterexample :
    ((execute_task {} (some (AdapterSpec.mk true
            [ToolResult.mk "subfinder" false [] [] "" (some "parse error") []] none))
          0 1 { name := "subfinder", description := "d" }).2.1.status
        = TaskStatus.completed)
      ∧ (([ToolResult.mk "subfinder" false [] [] "" (some "parse error") []]).all
          fun r => !r.success) = true := by
  refine ⟨by decide, by decide⟩

/-- C2 amended: whenever the adapter stream ends without raising — whatever
the `success` flags of the streamed results, including a failed final
result with no successful partials — the orchestrator marks the task
COMPLETED. -/
theorem stream_end_marks_completed :
    ∀ (o : Orch) (ad : AdapterSpec) (t1 t2 : Nat) (task : Task),
      ad.available = true → ad.stream_exc = none →
        (execute_task o (some ad) t1 t2 task).2.1.status = TaskStatus.completed := by
  intro o ad t1 t2 task hav hexc
  obtain ⟨av, stream, exc⟩ := ad
  simp only at hav hexc
  subst hav hexc
  simp [execute_task, mark_completed]

/-- C2 witness: the amended theorem applied to an empty available stream. -/
theorem stream_end_marks_completed_witness :
    (execute_task {} (some { available := true, stream := [], stream_exc := none }) 0 0
        { name := "httpx", description := "d" }).2.1.status = TaskStatus.completed :=
  stream_end_marks_completed {} { available := true, stream := [], stream_exc := none } 0 0
    { name := "httpx", description := "d" } rfl rfl

/-- C4 counterexample: on the registry-miss path `_execute_task` calls
`mark_failed` without ever calling `mark_running`, so the task reaches the
terminal FAILED status with `completed_at` set but `started_at` still
null, refuting the claimed `started_at ≠ null`. -/
theorem registry_miss_timestamps_counterexample :
    ((execute_task {} none 5 9 { name := "nosuch", description := "d" }).2.1.status
        = TaskStatus.failed)
      ∧ (execute_task {} none 5 9 { name := "nosuch", description := "d" }).2.1.completed_at
          = some 5
      ∧ (execute_task {} none 5 9 { name := "nosuch", description := "d" }).2.1.started_at
          = none := by
  refine ⟨by decide, by decide, by decide⟩

/-- C4 amended: every terminal task has a non-null `completed_at`, and
whenever `started_at` is also set (which the registry-miss and
unavailable-tool paths skip), `started_at ≤ completed_at` under a monotone
clock (`t1 ≤ t2`). -/
theorem terminal_timestamps :
    ∀ (o : Orch) (tool : Option AdapterSpec) (t1 t2 : Nat) (task : Task),
      t1 ≤ t2 → task.started_at = none →
        ((execute_task o tool t1 t2 task).2.1.status = TaskStatus.completed
          ∨ (execute_task o tool t1 t2 task).2.1.status = TaskStatus.failed
          ∨ (execute_task o tool t1 t2 task).2.1.status = TaskStatus.skipped) →
        (execute_task o tool t1 t2 task).2.1.completed_at ≠ none
        ∧ ∀ s c, (execute_task o tool t1 t2 task).2.1.started_at = some s →
            (execute_task o tool t1 t2 task).2.1.completed_at = some c → s ≤ c := by
  intro o tool t1 t2 task h12 hstart _
  match tool with
  | none =>
    refine ⟨by simp [execute_task, mark_failed], ?_⟩
    intro s c hs _
    simp [execute_task, mark_failed, hstart] at hs
  | some ⟨av, stream, exc⟩ =>
    cases av with
    | false =>
      refine ⟨by simp [execute_task, mark_failed], ?_⟩
      intro s c hs _
      simp [execute_task, mark_failed, hstart] at hs
    | true =>
      cases exc with
      | none =>
        have hfold := (foldl_process_result_task_fields stream
          ({ o with events := o.events ++ [task_started_event (mark_running t1 task)] },
            mark_running t1 task)).2.1
        constructor
        · simp [execute_task, mark_completed]
        · intro s c hs hc
          simp only [execute_task, mark_completed] at hs hc
          rw [hfold] at hs
          simp [mark_running] at hs
          simp at hc
          omega
      | some msg =>
        have hfold := (foldl_process_result_task_fields stream
          ({ o with events := o.events ++ [task_started_event (mark_running t1 task)] },
            mark_running t1 task)).2.1
        constructor
        · simp [execute_task, mark_failed]
        · intro s c hs hc
          simp only [execute_task, mark_failed] at hs hc
          rw [hfold] at hs
          simp [mark_running] at hs
          simp at hc
          omega

/-- C4 witness: the amended theorem applied to an available adapter with an
empty stream under a monotone clock. -/
theorem terminal_timestamps_witness :
    (execute_task {} (some { available := true, stream := [], stream_exc := none }) 3 7
        { name := "httpx", description := "d" }).2.1.completed_at ≠ none :=
  (terminal_timestamps {} (some { available := true, stream := [], stream_exc := none }) 3 7
      { name := "httpx", description := "d" } (by decide) rfl (by decide)).1

/-- The status transitions the scheduler can actually drive: the four the
specification lists plus the direct PENDING to FAILED step taken on
registry miss or unavailable tool. -/
def allowed_transition (a b : TaskStatus) : Prop :=
  (a, b) ∈ [(TaskStatus.pending, TaskStatus.running),
            (TaskStatus.running, TaskStatus.completed),
            (TaskStatus.running, TaskStatus.failed),
            (TaskStatus.pending, TaskStatus.skipped),
            (TaskStatus.pending, TaskStatus.failed)]

instance (a b : TaskStatus) : Decidable (allowed_transition a b) :=
  inferInstanceAs (Decidable ((a, b) ∈
    [(TaskStatus.pending, TaskStatus.running),
     (TaskStatus.running, TaskStatus.completed),
     (TaskStatus.running, TaskStatus.failed),
     (TaskStatus.pending, TaskStatus.skipped),
     (TaskStatus.pending, TaskStatus.failed)]))

/-- C5 counterexample: the registry-miss path drives a pending task
directly to FAILED; the transition `(PENDING, FAILED)` is outside the
claimed transition set. -/
theorem status_machine_counterexample :
    (execute_task {} none 0 0 { name := "nosuch", description := "d" }).2.2
        = [TaskStatus.pending, TaskStatus.failed]
      ∧ (TaskStatus.pending, TaskStatus.failed) ∉
          [(TaskStatus.pending, TaskStatus.running),
           (TaskStatus.running, TaskStatus.completed),
           (TaskStatus.running, TaskStatus.failed),
           (TaskStatus.pending, TaskStatus.skipped)] := by
  refine ⟨by decide, by decide⟩

/-- C5 amended: each adjacent pair of the status trace of a dispatched
pending task is one of PENDING→RUNNING, RUNNING→COMPLETED, RUNNING→FAILED,
PENDING→SKIPPED, or the additional PENDING→FAILED taken when the tool is
missing from the registry or unavailable. -/
theorem status_transitions_chain :
    ∀ (o : Orch) (tool : Option AdapterSpec) (t1 t2 : Nat) (task : Task),
      task.status = TaskStatus.pending →
        List.Chain' allowed_transition (execute_task o tool t1 t2 task).2.2 := by
  intro o tool t1 t2 task hp
  match tool with
  | none =>
    have ht : (execute_task o none t1 t2 task).2.2 = [task.status, .failed] := rfl
    rw [ht, hp]
    exact List.Chain.cons (by decide) List.Chain.nil
  | some ⟨av, stream, exc⟩ =>
    cases av with
    | false =>
      have ht : (execute_task o (some ⟨false, stream, exc⟩) t1 t2 task).2.2
          = [task.status, .failed] := rfl
      rw [ht, hp]
      exact List.Chain.cons (by decide) List.Chain.nil
    | true =>
      cases exc with
      | none =>
        have ht : (execute_task o (some ⟨true, stream, none⟩) t1 t2 task).2.2
            = [task.status, .running, .completed] := rfl
        rw [ht, hp]
        exact List.Chain.cons (by decide) (List.Chain.cons (by decide) List.Chain.nil)
      | some msg =>
        have ht : (execute_task o (some ⟨true, stream, some msg⟩) t1 t2 task).2.2
            = [task.status, .running, .failed] := rfl
        rw [ht, hp]
        exact List.Chain.cons (by decide) (List.Chain.cons (by decide) List.Chain.nil)

/-- C5 witness: the amended theorem applied on the registry-miss path. -/
theorem status_transitions_chain_witness :
    List.Chain' allowed_transition
      (execute_task {} none 0 0 { name := "whois", description := "d" }).2.2 :=
  status_transitions_chain {} none 0 0 { name := "whois", description := "d" } rfl

/-- C6 counterexample: on a registry miss the task is marked FAILED with an
error, but `_execute_task` returns before publishing anything — no
TASK_FAILED (or any other) event is emitted, refuting the claimed publish. -/
theorem registry_miss_event_counterexample :
    ((execute_task {} none 0 0 { name := "nosuch", description := "d" }).2.1.status
        = TaskStatus.failed)
      ∧ (execute_task {} none 0 0 { name := "nosuch", description := "d" }).2.1.error
          = some "Tool not found: nosuch"
      ∧ (execute_task {} none 0 0 { name := "nosuch", description := "d" }).1.events = [] := by
  refine ⟨by decide, by decide, by decide⟩

/-- C6 amended: when the tool is missing from the registry or reports
itself unavailable, the task is marked FAILED with a non-null error and
the function returns without publishing any event (the scan continues; the
claimed TASK_FAILED publish does not happen on this path). -/
theorem registry_miss_fails_without_event :
    ∀ (o : Orch) (tool : Option AdapterSpec) (t1 t2 : Nat) (task : Task),
      (tool = none ∨ ∃ ad, tool = some ad ∧ ad.available = false) →
        ((execute_task o tool t1 t2 task).2.1.status = TaskStatus.failed)
        ∧ (execute_task o tool t1 t2 task).2.1.error ≠ none
        ∧ (execute_task o tool t1 t2 task).1.events = o.events := by
  intro o tool t1 t2 task h
  rcases h with h | ⟨ad, had, hav⟩
  · subst h
    exact ⟨by simp [execute_task, mark_failed], by simp [execute_task, mark_failed], rfl⟩
  · subst had
    refine ⟨?_, ?_, ?_⟩ <;> simp [execute_task, hav, mark_failed]

/-- C6 witness: the amended theorem applied to a registry miss. -/
theorem registry_miss_fails_without_event_witness :
    ((execute_task {} none 1 2 { name := "amass", description := "d" }).2.1.status
        = TaskStatus.failed)
      ∧ (execute_task {} none 1 2 { name := "amass", description := "d" }).2.1.error ≠ none
      ∧ (execute_task {} none 1 2 { name := "amass", description := "d" }).1.events
          = ({} : Orch).events :=
  registry_miss_fails_without_event {} none 1 2 { name := "amass", description := "d" }
    (Or.inl rfl)

/-! ## Tool adapter streaming execution (reconpilot/tools/base.py)

`ToolAdapter.execute` drives a child process and yields `ToolResult`s.  Its
interaction with the outside world is captured by: the `is_available()`
answer, the incremental and final parsers, the process exit code, the
captured stderr text, and the sequence of outcomes of the
`asyncio.wait_for(stdout.readline(), timeout)` calls — each read either
delivers a line, signals end of stream (`b""`), or times out. -/

/-- The outcome of one guarded `readline` call. -/
inductive ReadEvent
  | line (s : String)
  | eof
  | timeout
deriving DecidableEq

/-- The adapter configuration fields `execute` reads (`tools.base.ToolConfig`). -/
structure ToolConfig where
  name : String
  binary : String
  timeout : Nat
deriving DecidableEq

/-- What `execute` leaves behind: the yielded results, whether `kill()` was
invoked on the child, and whether `self._process` is `None` on exit (the
handle is released). -/
structure ExecOut where
  yields : List ToolResult
  killed : Bool
  released : Bool
deriving DecidableEq

/-- The result yielded on the `asyncio.TimeoutError` branch (base.py lines
116-124): `f"Timeout after {self.config.timeout}s"`. -/
def timeout_result (cfg : ToolConfig) : ToolResult :=
  { tool_name := cfg.name, success := false,
    error := some ("Timeout after " ++ toString cfg.timeout ++ "s") }

/-- The result yielded when the binary is not on the search path (base.py
lines 78-84). -/
def not_found_result (cfg : ToolConfig) : ToolResult :=
  { tool_name := cfg.name, success := false,
    error := some ("Tool binary '" ++ cfg.binary ++ "' not found") }

/-- The post-loop phase (base.py lines 126-140): drain stderr, await exit,
parse the full stdout; when the exit code is non-zero and the final parse
reports failure, overwrite `error` with the captured stderr. -/
def final_result (cfg : ToolConfig) (fp : String → ToolResult) (exit_code : Int)
    (stderr_txt : String) (acc : List String) : ToolResult :=
  let result := fp (String.join acc)
  if (exit_code != 0) && !result.success then { result with error := some stderr_txt }
  else result

/-- The read loop of `execute` (base.py lines 99-124) with `acc` the
accumulated stdout lines: a delivered line is appended and the incremental
parse is yielded when it is successful and carries at least one asset or
finding; an empty read breaks to the post-loop phase (an exhausted outcome
list is likewise end of stream); a timeout kills the process, yields the
timeout result and returns. -/
def exec_loop (cfg : ToolConfig) (pp fp : String → ToolResult) (exit_code : Int)
    (stderr_txt : String) : List String → List ReadEvent → List ToolResult
  | acc, [] => [final_result cfg fp exit_code stderr_txt acc]
  | acc, .eof :: _ => [final_result cfg fp exit_code stderr_txt acc]
  | acc, .timeout :: _ => [timeout_result cfg]
  | acc, .line s :: rest =>
    let acc2 := acc ++ [s]
    let p := pp (String.join acc2)
    (if p.success && (!p.assets.isEmpty || !p.findings.isEmpty) then [p] else [])
      ++ exec_loop cfg pp fp exit_code stderr_txt acc2 rest

/-- `ToolAdapter.execute`: an unavailable binary yields one failure result
without spawning anything (the `try`/`finally` is never entered, so no kill
happens and `self._process` is still `None`); otherwise the child is
spawned, the read loop runs, and the `finally` block (base.py lines
148-154) kills the child and clears `self._process` on every exit path. -/
def execute (cfg : ToolConfig) (available : Bool) (pp fp : String → ToolResult)
    (exit_code : Int) (stderr_txt : String) (reads : List ReadEvent) : ExecOut :=
  if available then
    { yields := exec_loop cfg pp fp exit_code stderr_txt [] reads,
      killed := true, released := true }
  else
    { yields := [not_found_result cfg], killed := false, released := true }

/-- The successful incremental parses yielded while consuming a block of
delivered lines, starting from accumulated stdout `acc`. -/
def incremental_yields (pp : String → ToolResult) : List String → List String → List ToolResult
  | _, [] => []
  | acc, s :: rest =>
    let acc2 := acc ++ [s]
    let p := pp (String.join acc2)
    (if p.success && (!p.assets.isEmpty || !p.findings.isEmpty) then [p] else [])
      ++ incremental_yields pp acc2 rest

/-- When the reads are a block of lines followed by a timeout, the loop
yields the incremental results for those lines and then exactly the
timeout result, ignoring everything after the timeout. -/
theorem exec_loop_timeout_eq (cfg : ToolConfig) (pp fp : String → ToolResult)
    (exit_code : Int) (stderr_txt : String) :
    ∀ (pre : List String) (acc : List String) (rest : List ReadEvent),
      exec_loop cfg pp fp exit_code stderr_txt acc (pre.map ReadEvent.line ++ .timeout :: rest)
        = incremental_yields pp acc pre ++ [timeout_result cfg] := by
  intro pre
  induction pre with
  | nil => intro acc rest; rfl
  | cons s ss ih =>
    intro acc rest
    simp only [List.map_cons, List.cons_append, exec_loop, incremental_yields, List.append_eq]
    rw [ih]
    simp [List.append_assoc]

/-- Every incremental result yielded by the read loop has `success=true`
(the yield is guarded by `partial_result.success`). -/
theorem incremental_yields_all_success (pp : String → ToolResult) :
    ∀ (pre acc : List String), ∀ r ∈ incremental_yields pp acc pre, r.success = true := by
  intro pre
  induction pre with
  | nil => intro acc r hr; simp [incremental_yields] at hr
  | cons s ss ih =>
    intro acc r hr
    simp only [incremental_yields] at hr
    rcases List.mem_append.mp hr with hr' | hr'
    · by_cases hp : (pp (String.join (acc ++ [s]))).success
          && (!(pp (String.join (acc ++ [s]))).assets.isEmpty
              || !(pp (String.join (acc ++ [s]))).findings.isEmpty)
      · rw [if_pos hp] at hr'
        simp only [List.mem_singleton] at hr'
        subst hr'
        exact (Bool.and_eq_true _ _ ▸ hp).1
      · rw [if_neg hp] at hr'
        simp at hr'
    · exact ih (acc ++ [s]) r hr'

/-- C8 counterexample: at timeout the adapter yields
`error = "Timeout after 300s"`, which does not contain the claimed
lowercase substring `"timeout"`. -/
theorem adapter_timeout_lowercase_counterexample :
    ((execute (ToolConfig.mk "nmap" "nmap" 300) true
          (fun _ => ToolResult.mk "nmap" false [] [] "" none [])
          (fun o => ToolResult.mk "nmap" true [] [] o none []) 0 "" [ReadEvent.timeout]).yields
        = [timeout_result (ToolConfig.mk "nmap" "nmap" 300)])
      ∧ (timeout_result (ToolConfig.mk "nmap" "nmap" 300)).error
          = some "Timeout after 300s"
      ∧ strContains ((timeout_result (ToolConfig.mk "nmap" "nmap" 300)).error.getD "") "timeout"
          = false := by
  refine ⟨by decide, by decide, by decide⟩

/-- C8 amended: when a read times out, the stream is the successful
incremental results of the lines read so far followed by exactly one
`ToolResult` with `success=false` whose error contains `"Timeout"` (capital
T — not the claimed lowercase `"timeout"`), nothing is yielded after it,
exactly one yielded result has `success=false`, the child is killed and the
process handle is released. -/
theorem adapter_timeout_behaviour :
    ∀ (cfg : ToolConfig) (pp fp : String → ToolResult) (exit_code : Int)
      (stderr_txt : String) (pre : List String) (rest : List ReadEvent),
      ((execute cfg true pp fp exit_code stderr_txt
            (pre.map ReadEvent.line ++ .timeout :: rest)).yields
          = incremental_yields pp [] pre ++ [timeout_result cfg])
      ∧ ((timeout_result cfg).success = false)
      ∧ strContains ((timeout_result cfg).error.getD "") "Timeout" = true
      ∧ ((execute cfg true pp fp exit_code stderr_txt
            (pre.map ReadEvent.line ++ .timeout :: rest)).yields.filter
              fun r => !r.success).length = 1
      ∧ ((execute cfg true pp fp exit_code stderr_txt
            (pre.map ReadEvent.line ++ .timeout :: rest)).killed = true)
      ∧ (execute cfg true pp fp exit_code stderr_txt
            (pre.map ReadEvent.line ++ .timeout :: rest)).released = true := by
  intro cfg pp fp exit_code stderr_txt pre rest
  have hex : (execute cfg true pp fp exit_code stderr_txt
      (pre.map ReadEvent.line ++ .timeout :: rest)).yields
      = incremental_yields pp [] pre ++ [timeout_result cfg] := by
    show exec_loop cfg pp fp exit_code stderr_txt [] (pre.map ReadEvent.line ++ .timeout :: rest)
      = incremental_yields pp [] pre ++ [timeout_result cfg]
    exact exec_loop_timeout_eq cfg pp fp exit_code stderr_txt pre [] rest
  refine ⟨hex, rfl, ?_, ?_, rfl, rfl⟩
  · have hcat : ("Timeout after ").data = "Timeout".data ++ " after ".data := rfl
    have hinf : ("Timeout".data : List Char)
        <:+: ("Timeout after " ++ toString cfg.timeout ++ "s").data := by
      refine ⟨[], " after ".data ++ ((toString cfg.timeout).data ++ "s".data), ?_⟩
      rw [String.data_append, String.data_append, hcat]
      simp [List.append_assoc]
    exact decide_eq_true hinf
  · rw [hex, List.filter_append]
    have h1 : (incremental_yields pp [] pre).filter (fun r => !r.success) = [] := by
      rw [List.filter_eq_nil_iff]
      intro r hr
      rw [incremental_yields_all_success pp pre [] r hr]
      simp
    rw [h1]
    rfl

/-! ## Persistence (reconpilot/core/database.py)

Timestamps are stored as ISO-8601 text; `datetime.isoformat` /
`datetime.fromisoformat` round-trip exactly, so serialization of instants
is modelled as the identity on abstract `Nat` instants.  `json.dumps` /
`json.loads` round-trip string-keyed metadata dicts and string lists
exactly and are likewise modelled as the identity.  SQLite's
`INSERT OR REPLACE` deletes a conflicting primary-key row and appends the
replacement with a fresh rowid; an unordered `SELECT` returns rows in rowid
order — so a table is a list and upsert is filter-out-then-append. -/

/-- Inverse of `status_value`; `TaskStatus(s)` raises on unknown input,
which never happens on rows written by `save_session`. -/
def status_of_value (s : String) : Option TaskStatus :=
  if s = "pending" then some .pending
  else if s = "running" then some .running
  else if s = "completed" then some .completed
  else if s = "failed" then some .failed
  else if s = "skipped" then some .skipped
  else none

/-- Inverse of `severity_value`; `Severity(s)` raises on unknown input. -/
def severity_of_value (s : String) : Option Severity :=
  if s = "critical" then some .critical
  else if s = "high" then some .high
  else if s = "medium" then some .medium
  else if s = "low" then some .low
  else if s = "info" then some .info
  else none

/-- A row of the `sessions` table. -/
structure SessionRow where
  id : String
  target : String
  started_at : Nat
  completed_at : Option Nat
  metadata : List (String × String)
deriving DecidableEq

/-- A row of the `tasks` table. -/
structure TaskRow where
  id : String
  session_id : String
  name : String
  description : String
  status : String
  progress : ℚ
  created_at : Nat
  started_at : Option Nat
  completed_at : Option Nat
  error : Option String
  metadata : List (String × String)
deriving DecidableEq

/-- A row of the `assets` table. -/
structure AssetRow where
  id : String
  session_id : String
  type : String
  value : String
  discovered_by : String
  timestamp : Nat
  score : ℚ
  metadata : List (String × String)
deriving DecidableEq

/-- A row of the `findings` table. -/
structure FindingRow where
  id : String
  session_id : String
  severity : String
  title : String
  host : String
  description : String
  discovered_by : String
  timestamp : Nat
  evidence : Option String
  recommendations : List String
  metadata : List (String × String)
deriving DecidableEq

/-- The four tables of the session store, each in rowid order. -/
structure DB where
  sessions : List SessionRow := []
  tasks : List TaskRow := []
  assets : List AssetRow := []
  findings : List FindingRow := []
deriving DecidableEq

/-- `INSERT OR REPLACE` keyed on the primary key: drop any row with the
same id, append the new row at the end (fresh rowid). -/
def upsert {α : Type} (key : α → String) (rows : List α) (r : α) : List α :=
  (rows.filter fun x => key x != key r) ++ [r]

/-- Serialization of a task (`save_session`, tasks loop). -/
def task_to_row (sid : String) (t : Task) : TaskRow :=
  { id := t.id, session_id := sid, name := t.name, description := t.description,
    status := status_value t.status, progress := t.progress, created_at := t.created_at,
    started_at := t.started_at, completed_at := t.completed_at, error := t.error,
    metadata := t.metadata }

/-- Deserialization of a task (`get_session`, tasks loop). -/
def row_to_task (r : TaskRow) : Task :=
  { id := r.id, name := r.name, description := r.description,
    status := (status_of_value r.status).getD .pending, progress := r.progress,
    created_at := r.created_at, started_at := r.started_at, completed_at := r.completed_at,
    error := r.error, metadata := r.metadata }

/-- Serialization of an asset. -/
def asset_to_row (sid : String) (a : Asset) : AssetRow :=
  { id := a.id, session_id := sid, type := a.type, value := a.value,
    discovered_by := a.discovered_by, timestamp := a.timestamp, score := a.score,
    metadata := a.metadata }

/-- Deserialization of an asset. -/
def row_to_asset (r : AssetRow) : Asset :=
  { id := r.id, type := r.type, value := r.value, discovered_by := r.discovered_by,
    timestamp := r.timestamp, score := r.score, metadata := r.metadata }

/-- Serialization of a finding. -/
def finding_to_row (sid : String) (f : Finding) : FindingRow :=
  { id := f.id, session_id := sid, severity := severity_value f.severity, title := f.title,
    host := f.host, description := f.description, discovered_by := f.discovered_by,
    timestamp := f.timestamp, evidence := f.evidence,
    recommendations := f.recommendations, metadata := f.metadata }

/-- Deserialization of a finding. -/
def row_to_finding (r : FindingRow) : Finding :=
  { id := r.id, severity := (severity_of_value r.severity).getD .info, title := r.title,
    host := r.host, description := r.description, discovered_by := r.discovered_by,
    timestamp := r.timestamp, evidence := r.evidence,
    recommendations := r.recommendations, metadata := r.metadata }

/-- `Database.save_session` (database.py lines 79-157): upsert the session
row, then each task, asset and finding row in list order. -/
def save_session (db : DB) (s : ScanSession) : DB :=
  { sessions := upsert SessionRow.id db.sessions
      { id := s.id, target := s.target, started_at := s.started_at,
        completed_at := s.completed_at, metadata := s.metadata },
    tasks := (s.tasks.map (task_to_row s.id)).foldl (upsert TaskRow.id) db.tasks,
    assets := (s.assets.map (asset_to_row s.id)).foldl (upsert AssetRow.id) db.assets,
    findings := (s.findings.map (finding_to_row s.id)).foldl (upsert FindingRow.id) db.findings }

/-- `Database.get_session` (database.py lines 159-240): find the session
row, then reconstruct the children from the rows with this session id, in
table order. -/
def get_session (db : DB) (sid : String) : Option ScanSession :=
  match db.sessions.find? (fun r => r.id == sid) with
  | none => none
  | some row => some
      { id := row.id, target := row.target, started_at := row.started_at,
        completed_at := row.completed_at, metadata := row.metadata,
        tasks := (db.tasks.filter fun r => r.session_id == sid).map row_to_task,
        assets := (db.assets.filter fun r => r.session_id == sid).map row_to_asset,
        findings := (db.findings.filter fun r => r.session_id == sid).map row_to_finding }

/-- A session whose two tasks share an id, as the `Task` dataclass allows. -/
def dup_id_session : ScanSession :=
  { target := "example.com", id := "s1",
    tasks := [{ name := "nmap", description := "first", id := "x" },
              { name := "httpx", description := "second", id := "x" }] }

/-- C9 counterexample: `INSERT OR REPLACE` is keyed on the task primary key
alone, so two session tasks sharing an id collapse to one row — the
reloaded session has a single task where the original had two. -/
theorem roundtrip_duplicate_id_counterexample :
    get_session (save_session {} dup_id_session) dup_id_session.id ≠ some dup_id_session
      ∧ (get_session (save_session {} dup_id_session) "s1").map (fun r => r.tasks.length)
          = some 1
      ∧ dup_id_session.tasks.length = 2 := by
  refine ⟨by decide, by decide, by decide⟩

/-- Folding upserts over rows with pairwise-distinct keys, none of which
collides with the accumulator, appends them in order. -/
theorem foldl_upsert_eq_append {α : Type} (key : α → String) :
    ∀ (rows acc : List α), (∀ r ∈ rows, key r ∉ acc.map key) → (rows.map key).Nodup →
      rows.foldl (upsert key) acc = acc ++ rows := by
  intro rows
  induction rows with
  | nil => intro acc _ _; simp
  | cons r rest ih =>
    intro acc hfresh hnd
    have hkr : key r ∉ acc.map key := hfresh r (by simp)
    have hfilter : acc.filter (fun x => key x != key r) = acc := by
      rw [List.filter_eq_self]
      intro x hx
      rw [bne_iff_ne]
      intro hxe
      exact hkr (hxe ▸ List.mem_map_of_mem key hx)
    have hstep : upsert key acc r = acc ++ [r] := by
      unfold upsert
      rw [hfilter]
    simp only [List.foldl_cons, hstep]
    rw [List.map_cons, List.nodup_cons] at hnd
    have hfresh2 : ∀ x ∈ rest, key x ∉ (acc ++ [r]).map key := by
      intro x hx
      rw [List.map_append, List.mem_append]
      rintro (hmem | hmem)
      · exact hfresh x (List.mem_cons_of_mem _ hx) hmem
      · simp only [List.map_cons, List.map_nil, List.mem_singleton] at hmem
        exact hnd.1 (hmem ▸ List.mem_map_of_mem key hx)
    rw [ih (acc ++ [r]) hfresh2 hnd.2]
    simp

/-- Status strings round-trip. -/
theorem status_value_roundtrip (st : TaskStatus) :
    (status_of_value (status_value st)).getD .pending = st := by
  cases st <;> rfl

/-- Severity strings round-trip. -/
theorem severity_value_roundtrip (sv : Severity) :
    (severity_of_value (severity_value sv)).getD .info = sv := by
  cases sv <;> rfl

/-- Task rows round-trip. -/
theorem task_row_roundtrip (sid : String) (t : Task) : row_to_task (task_to_row sid t) = t := by
  unfold row_to_task task_to_row
  cases t
  simp [status_value_roundtrip]

/-- Asset rows round-trip. -/
theorem asset_row_roundtrip (sid : String) (a : Asset) : row_to_asset (asset_to_row sid a) = a := by
  cases a
  rfl

/-- Finding rows round-trip. -/
theorem finding_row_roundtrip (sid : String) (f : Finding) :
    row_to_finding (finding_to_row sid f) = f := by
  unfold row_to_finding finding_to_row
  cases f
  simp [severity_value_roundtrip]

/-- C9 amended: the persistence round-trip is exact — same fields, same
child order — for every session whose task, asset and finding ids are
pairwise distinct within each list (the dataclass default `uuid4` ids, and
the invariant the specification itself states), saved into a store with no
pre-existing rows; duplicated ids collapse under the upsert-by-primary-key
writes. -/
theorem save_get_roundtrip :
    ∀ s : ScanSession,
      (s.tasks.map Task.id).Nodup →
      (s.assets.map Asset.id).Nodup →
      (s.findings.map Finding.id).Nodup →
        get_session (save_session {} s) s.id = some s := by
  intro s hnt hna hnf
  obtain ⟨target, id, started_at, completed_at, tasks, findings, assets, metadata⟩ := s
  have htt : (tasks.map (task_to_row id)).foldl (upsert TaskRow.id) []
      = tasks.map (task_to_row id) := by
    refine foldl_upsert_eq_append TaskRow.id _ [] (by simp) ?_
    rw [List.map_map]
    exact hnt
  have haa : (assets.map (asset_to_row id)).foldl (upsert AssetRow.id) []
      = assets.map (asset_to_row id) := by
    refine foldl_upsert_eq_append AssetRow.id _ [] (by simp) ?_
    rw [List.map_map]
    exact hna
  have hff : (findings.map (finding_to_row id)).foldl (upsert FindingRow.id) []
      = findings.map (finding_to_row id) := by
    refine foldl_upsert_eq_append FindingRow.id _ [] (by simp) ?_
    rw [List.map_map]
    exact hnf
  have hsave : save_session {} ⟨target, id, started_at, completed_at, tasks, findings, assets, metadata⟩
      = { sessions := [⟨id, target, started_at, completed_at, metadata⟩],
          tasks := tasks.map (task_to_row id),
          assets := assets.map (asset_to_row id),
          findings := findings.map (finding_to_row id) } := by
    unfold save_session
    simp only [upsert, List.filter_nil, List.nil_append]
    rw [htt, haa, hff]
  rw [hsave]
  unfold get_session
  simp only [List.find?_cons, beq_self_eq_true]
  have hfiltt : (tasks.map (task_to_row id)).filter (fun r => r.session_id == id)
      = tasks.map (task_to_row id) := by
    rw [List.filter_eq_self]
    intro r hr
    obtain ⟨t, _, rfl⟩ := List.mem_map.mp hr
    simp [task_to_row]
  have hfilta : (assets.map (asset_to_row id)).filter (fun r => r.session_id == id)
      = assets.map (asset_to_row id) := by
    rw [List.filter_eq_self]
    intro r hr
    obtain ⟨a, _, rfl⟩ := List.mem_map.mp hr
    simp [asset_to_row]
  have hfiltf : (findings.map (finding_to_row id)).filter (fun r => r.session_id == id)
      = findings.map (finding_to_row id) := by
    rw [List.filter_eq_self]
    intro r hr
    obtain ⟨f, _, rfl⟩ := List.mem_map.mp hr
    simp [finding_to_row]
  rw [hfiltt, hfilta, hfiltf]
  rw [List.map_map, List.map_map, List.map_map]
  have ht2 : tasks.map (row_to_task ∘ task_to_row id) = tasks := by
    rw [show row_to_task ∘ task_to_row id = fun t => t from funext fun t => task_row_roundtrip id t]
    exact List.map_id tasks
  have ha2 : assets.map (row_to_asset ∘ asset_to_row id) = assets := by
    rw [show row_to_asset ∘ asset_to_row id = fun a => a from funext fun a => asset_row_roundtrip id a]
    exact List.map_id assets
  have hf2 : findings.map (row_to_finding ∘ finding_to_row id) = findings := by
    rw [show row_to_finding ∘ finding_to_row id = fun f => f
      from funext fun f => finding_row_roundtrip id f]
    exact List.map_id findings
  rw [ht2, ha2, hf2]

/-- C9 witness: the amended round-trip applied to a concrete session with
one task, one asset and one finding, all ids distinct. -/
theorem save_get_roundtrip_witness :
    get_session
        (save_session {}
          { target := "example.com", id := "s9",
            tasks := [{ name := "nmap", description := "scan", id := "t1" }],
            findings := [{ severity := .high, title := "f", host := "h",
                           description := "d", discovered_by := "nmap", id := "f1" }],
            assets := [{ type := "ip", value := "10.0.0.1", discovered_by := "nmap",
                         id := "a1" }] })
        "s9"
      = some { target := "example.com", id := "s9",
               tasks := [{ name := "nmap", description := "scan", id := "t1" }],
               findings := [{ severity := .high, title := "f", host := "h",
                              description := "d", discovered_by := "nmap", id := "f1" }],
               assets := [{ type := "ip", value := "10.0.0.1", discovered_by := "nmap",
                            id := "a1" }] } :=
  save_get_roundtrip
    { target := "example.com", id := "s9",
      tasks := [{ name := "nmap", description := "scan", id := "t1" }],
      findings := [{ severity := .high, title := "f", host := "h",
                     description := "d", discovered_by := "nmap", id := "f1" }],
      assets := [{ type := "ip", value := "10.0.0.1", discovered_by := "nmap",
                   id := "a1" }] }
    (by decide) (by decide) (by decide)

end ReconPilot
